import Mathlib

set_option maxRecDepth 100000

/-!
Shallow embedding of the request-signing core of the fc-nodejs-sdk client
(src/library/client.ts): canonical-string construction, HMAC-SHA256 signing,
body encoding, request preparation and response error interpretation.

JavaScript strings are modelled as Lean `String`, JS objects (header / query
mappings, whose string keys are distinct and enumerate in insertion order) as
association lists `List (String × _)` with distinct keys, and byte buffers as
`List Nat` of bytes (each < 256).
-/

/-- Truncate to an unsigned 32-bit word (machine arithmetic is modelled as
`Nat` reduced mod 2 ^ 32). -/
def w32 (x : Nat) : Nat := x % 4294967296

/-- Rotate a 32-bit word right by `n` bits (for `x < 2 ^ 32`). -/
def rotr32 (n x : Nat) : Nat := w32 (x / 2 ^ n + x % 2 ^ n * 2 ^ (32 - n))

/-- Rotate a 32-bit word left by `n` bits (for `x < 2 ^ 32`). -/
def rotl32 (n x : Nat) : Nat := w32 (x % 2 ^ (32 - n) * 2 ^ n + x / 2 ^ (32 - n))

/-- Bitwise complement of a 32-bit word. -/
def not32 (x : Nat) : Nat := x ^^^ 4294967295

/-- Big-endian byte decomposition, most significant byte first. -/
def beBytes : Nat → Nat → List Nat
  | 0, _ => []
  | n + 1, x => beBytes n (x / 256) ++ [x % 256]

/-- Little-endian byte decomposition, least significant byte first. -/
def leBytes : Nat → Nat → List Nat
  | 0, _ => []
  | n + 1, x => x % 256 :: leBytes n (x / 256)

/-- Group a byte list into big-endian 32-bit words (4 bytes per word). -/
def beWords : List Nat → List Nat
  | b0 :: b1 :: b2 :: b3 :: rest => (((b0 * 256 + b1) * 256 + b2) * 256 + b3) :: beWords rest
  | _ => []

/-- Group a byte list into little-endian 32-bit words (4 bytes per word). -/
def leWords : List Nat → List Nat
  | b0 :: b1 :: b2 :: b3 :: rest => (((b3 * 256 + b2) * 256 + b1) * 256 + b0) :: leWords rest
  | _ => []

/-- UTF-8 encoding of a single Unicode scalar value. -/
def utf8EncodeCharNat (c : Char) : List Nat :=
  let n := c.toNat
  if n < 128 then [n]
  else if n < 2048 then [192 + n / 64, 128 + n % 64]
  else if n < 65536 then [224 + n / 4096, 128 + n / 64 % 64, 128 + n % 64]
  else [240 + n / 262144, 128 + n / 4096 % 64, 128 + n / 64 % 64, 128 + n % 64]

/-- UTF-8 byte encoding of a string (the bytes Node produces for
`Buffer.from(s, "utf8")`). -/
def utf8Bytes (s : String) : List Nat := s.data.flatMap utf8EncodeCharNat

/-- SHA-256 round constants. -/
def sha256K : List Nat := [
  1116352408, 1899447441, 3049323471, 3921009573, 961987163, 1508970993, 2453635748, 2870763221,
  3624381080, 310598401, 607225278, 1426881987, 1925078388, 2162078206, 2614888103, 3248222580,
  3835390401, 4022224774, 264347078, 604807628, 770255983, 1249150122, 1555081692, 1996064986,
  2554220882, 2821834349, 2952996808, 3210313671, 3336571891, 3584528711, 113926993, 338241895,
  666307205, 773529912, 1294757372, 1396182291, 1695183700, 1986661051, 2177026350, 2456956037,
  2730485921, 2820302411, 3259730800, 3345764771, 3516065817, 3600352804, 4094571909, 275423344,
  430227734, 506948616, 659060556, 883997877, 958139571, 1322822218, 1537002063, 1747873779,
  1955562222, 2024104815, 2227730452, 2361852424, 2428436474, 2756734187, 3204031479, 3329325298]

/-- SHA-256 initial hash state. -/
def sha256H0 : List Nat := [
  1779033703, 3144134277, 1013904242, 2773480762,
  1359893119, 2600822924, 528734635, 1541459225]

/-- Append SHA-256/MD5 padding length of zero bytes for a message of length
`len`: after the 0x80 byte, pad to 56 mod 64. -/
def padZeroCount (len : Nat) : Nat := (119 - len % 64) % 64

/-- SHA-256 message padding: 0x80, zeros, 8-byte big-endian bit length. -/
def sha256Pad (msg : List Nat) : List Nat :=
  msg ++ [128] ++ List.replicate (padZeroCount msg.length) 0 ++ beBytes 8 (msg.length * 8)

/-- Extend 16 message-schedule words to 64. -/
def sha256Extend (w0 : List Nat) : List Nat :=
  (List.range 48).foldl
    (fun w i =>
      let g := fun j => w.getD j 0
      let s0 := rotr32 7 (g (i + 1)) ^^^ rotr32 18 (g (i + 1)) ^^^ g (i + 1) / 2 ^ 3
      let s1 := rotr32 17 (g (i + 14)) ^^^ rotr32 19 (g (i + 14)) ^^^ g (i + 14) / 2 ^ 10
      w ++ [w32 (g i + s0 + g (i + 9) + s1)])
    w0

/-- One SHA-256 compression round over an 8-word state. -/
def sha256Round (w : List Nat) (st : List Nat) (i : Nat) : List Nat :=
  match st with
  | [a, b, c, d, e, f, g, h] =>
    let s1 := rotr32 6 e ^^^ rotr32 11 e ^^^ rotr32 25 e
    let ch := e &&& f ^^^ not32 e &&& g
    let t1 := w32 (h + s1 + ch + sha256K.getD i 0 + w.getD i 0)
    let s0 := rotr32 2 a ^^^ rotr32 13 a ^^^ rotr32 22 a
    let mj := a &&& b ^^^ a &&& c ^^^ b &&& c
    let t2 := w32 (s0 + mj)
    [w32 (t1 + t2), a, b, c, w32 (d + t1), e, f, g]
  | _ => st

/-- SHA-256 compression of one 64-byte block into the hash state. -/
def sha256Compress (h : List Nat) (block : List Nat) : List Nat :=
  let w := sha256Extend (beWords block)
  let fin := (List.range 64).foldl (sha256Round w) h
  List.zipWith (fun x y => w32 (x + y)) h fin

/-- Fold SHA-256 compression over successive 64-byte blocks (fuel-indexed
structural recursion; the fuel supplied always exceeds the block count). -/
def sha256Blocks : Nat → List Nat → List Nat → List Nat
  | 0, h, _ => h
  | fuel + 1, h, l =>
    if l.isEmpty then h
    else sha256Blocks fuel (sha256Compress h (l.take 64)) (l.drop 64)

/-- SHA-256 digest (32 bytes) of a byte message. -/
def sha256 (msg : List Nat) : List Nat :=
  let padded := sha256Pad msg
  (sha256Blocks (padded.length + 1) sha256H0 padded).flatMap (beBytes 4)

/-- HMAC-SHA256 (RFC 2104) with block size 64. -/
def hmacSha256 (key msg : List Nat) : List Nat :=
  let k0 := if key.length > 64 then sha256 key else key
  let k := k0 ++ List.replicate (64 - k0.length) 0
  let ipad := k.map (fun b => b ^^^ 54)
  let opad := k.map (fun b => b ^^^ 92)
  sha256 (opad ++ sha256 (ipad ++ msg))

/-- Standard base64 alphabet. -/
def base64Alphabet : List Char :=
  "ABCDEFGHIJKLMNOPQRSTUVWXYZabcdefghijklmnopqrstuvwxyz0123456789+/".data

/-- Base64 encoding with padding, as the Node buffer method `toString("base64")`. -/
def base64encode : List Nat → String
  | [] => ""
  | [b0] =>
    String.mk [base64Alphabet.getD (b0 / 4) 'A',
      base64Alphabet.getD (b0 % 4 * 16) 'A'] ++ "=="
  | [b0, b1] =>
    String.mk [base64Alphabet.getD (b0 / 4) 'A',
      base64Alphabet.getD (b0 % 4 * 16 + b1 / 16) 'A',
      base64Alphabet.getD (b1 % 16 * 4) 'A'] ++ "="
  | b0 :: b1 :: b2 :: rest =>
    String.mk [base64Alphabet.getD (b0 / 4) 'A',
      base64Alphabet.getD (b0 % 4 * 16 + b1 / 16) 'A',
      base64Alphabet.getD (b1 % 16 * 4 + b2 / 64) 'A',
      base64Alphabet.getD (b2 % 64) 'A'] ++ base64encode rest

/-- MD5 per-round shift amounts. -/
def md5S : List Nat := [
  7, 12, 17, 22, 7, 12, 17, 22, 7, 12, 17, 22, 7, 12, 17, 22,
  5, 9, 14, 20, 5, 9, 14, 20, 5, 9, 14, 20, 5, 9, 14, 20,
  4, 11, 16, 23, 4, 11, 16, 23, 4, 11, 16, 23, 4, 11, 16, 23,
  6, 10, 15, 21, 6, 10, 15, 21, 6, 10, 15, 21, 6, 10, 15, 21]

/-- MD5 sine-derived round constants. -/
def md5K : List Nat := [
  3614090360, 3905402710, 606105819, 3250441966, 4118548399, 1200080426, 2821735955, 4249261313,
  1770035416, 2336552879, 4294925233, 2304563134, 1804603682, 4254626195, 2792965006, 1236535329,
  4129170786, 3225465664, 643717713, 3921069994, 3593408605, 38016083, 3634488961, 3889429448,
  568446438, 3275163606, 4107603335, 1163531501, 2850285829, 4243563512, 1735328473, 2368359562,
  4294588738, 2272392833, 1839030562, 4259657740, 2763975236, 1272893353, 4139469664, 3200236656,
  681279174, 3936430074, 3572445317, 76029189, 3654602809, 3873151461, 530742520, 3299628645,
  4096336452, 1126891415, 2878612391, 4237533241, 1700485571, 2399980690, 4293915773, 2240044497,
  1873313359, 4264355552, 2734768916, 1309151649, 4149444226, 3174756917, 718787259, 3951481745]

/-- MD5 message padding: 0x80, zeros, 8-byte little-endian bit length. -/
def md5Pad (msg : List Nat) : List Nat :=
  msg ++ [128] ++ List.replicate (padZeroCount msg.length) 0 ++ leBytes 8 (msg.length * 8)

/-- One MD5 round over the four-word state. -/
def md5Round (m : List Nat) (st : List Nat) (i : Nat) : List Nat :=
  match st with
  | [a, b, c, d] =>
    let fg : Nat × Nat :=
      if i < 16 then (b &&& c ||| not32 b &&& d, i)
      else if i < 32 then (d &&& b ||| not32 d &&& c, (5 * i + 1) % 16)
      else if i < 48 then (b ^^^ c ^^^ d, (3 * i + 5) % 16)
      else (c ^^^ (b ||| not32 d), 7 * i % 16)
    let f := w32 (fg.1 + a + md5K.getD i 0 + m.getD fg.2 0)
    [d, w32 (b + rotl32 (md5S.getD i 0) f), b, c]
  | _ => st

/-- MD5 compression of one 64-byte block into the state. -/
def md5Compress (h : List Nat) (block : List Nat) : List Nat :=
  let m := leWords block
  let fin := (List.range 64).foldl (md5Round m) h
  List.zipWith (fun x y => w32 (x + y)) h fin

/-- Fold MD5 compression over successive 64-byte blocks (fuel-indexed
structural recursion; the fuel supplied always exceeds the block count). -/
def md5Blocks : Nat → List Nat → List Nat → List Nat
  | 0, h, _ => h
  | fuel + 1, h, l =>
    if l.isEmpty then h
    else md5Blocks fuel (md5Compress h (l.take 64)) (l.drop 64)

/-- MD5 digest (16 bytes) of a byte message. -/
def md5Bytes (msg : List Nat) : List Nat :=
  let padded := md5Pad msg
  (md5Blocks (padded.length + 1) [1732584193, 4023233417, 2562383102, 271733878] padded).flatMap
    (leBytes 4)

/-- Lower-case hexadecimal digit. -/
def hexDigit (n : Nat) : Char := "0123456789abcdef".data.getD n '0'

/-- Two-digit lower-case hex of one byte. -/
def byteHex (b : Nat) : String := String.mk [hexDigit (b / 16), hexDigit (b % 16)]

/-- Lower-case hex MD5 digest of a byte message; models `kitx.md5(buff, "hex")`. -/
def md5hex (msg : List Nat) : String := String.join ((md5Bytes msg).map byteHex)

/-- Value of a hexadecimal digit character, if it is one. -/
def hexVal (c : Char) : Option Nat :=
  if '0' ≤ c ∧ c ≤ '9' then some (c.toNat - '0'.toNat)
  else if 'a' ≤ c ∧ c ≤ 'f' then some (c.toNat - 'a'.toNat + 10)
  else if 'A' ≤ c ∧ c ≤ 'F' then some (c.toNat - 'A'.toNat + 10)
  else none

/-- Percent-decode a character sequence to bytes; a percent sign followed by
two hex digits yields that byte, other characters contribute their UTF-8
bytes. Malformed escapes yield `none` (where JS raises URIError). -/
def percentDecodeBytes : List Char → Option (List Nat)
  | [] => some []
  | '%' :: c1 :: c2 :: rest =>
    match hexVal c1, hexVal c2, percentDecodeBytes rest with
    | some h1, some h2, some tail => some ((h1 * 16 + h2) :: tail)
    | _, _, _ => none
  | '%' :: _ => none
  | c :: rest =>
    match percentDecodeBytes rest with
    | some tail => some (utf8EncodeCharNat c ++ tail)
    | none => none

/-- Whether a byte is a UTF-8 continuation byte. -/
def isCont (b : Nat) : Bool := 128 ≤ b ∧ b < 192

/-- Decode a UTF-8 byte list to Unicode scalar values, rejecting truncated,
overlong and surrogate encodings. -/
def utf8DecodeCodepoints : List Nat → Option (List Nat)
  | [] => some []
  | b :: rest =>
    if b < 128 then (utf8DecodeCodepoints rest).map (b :: ·)
    else if 194 ≤ b ∧ b ≤ 223 then
      match rest with
      | b2 :: rest2 =>
        if isCont b2 then
          (utf8DecodeCodepoints rest2).map (((b - 192) * 64 + (b2 - 128)) :: ·)
        else none
      | _ => none
    else if 224 ≤ b ∧ b ≤ 239 then
      match rest with
      | b2 :: b3 :: rest3 =>
        let cp := (b - 224) * 4096 + (b2 - 128) * 64 + (b3 - 128)
        if isCont b2 ∧ isCont b3 ∧ 2048 ≤ cp ∧ ¬(55296 ≤ cp ∧ cp ≤ 57343) then
          (utf8DecodeCodepoints rest3).map (cp :: ·)
        else none
      | _ => none
    else if 240 ≤ b ∧ b ≤ 244 then
      match rest with
      | b2 :: b3 :: b4 :: rest4 =>
        let cp := (b - 240) * 262144 + (b2 - 128) * 4096 + (b3 - 128) * 64 + (b4 - 128)
        if isCont b2 ∧ isCont b3 ∧ isCont b4 ∧ 65536 ≤ cp ∧ cp ≤ 1114111 then
          (utf8DecodeCodepoints rest4).map (cp :: ·)
        else none
      | _ => none
    else none

/-- Model of the JS builtin `decodeURIComponent`: percent-escapes are decoded
as UTF-8. Where JS raises URIError (malformed escape or invalid byte
sequence) the input is returned unchanged; no claim exercises that case. -/
def decodeURIComponent (s : String) : String :=
  match percentDecodeBytes s.data with
  | none => s
  | some bs =>
    match utf8DecodeCodepoints bs with
    | none => s
    | some cps => String.mk (cps.map Char.ofNat)

/-- Lower-case one character; models JS `toLowerCase` on the ASCII range
(all header keys the program uses are ASCII). -/
def lowerChar (c : Char) : Char :=
  if 'A' ≤ c ∧ c ≤ 'Z' then Char.ofNat (c.toNat + 32) else c

/-- Model of JS `String.prototype.toLowerCase` (ASCII range). -/
def jsToLower (s : String) : String := String.mk (s.data.map lowerChar)

/-- ASCII whitespace trimmed by JS `String.prototype.trim`. -/
def isJsSpace (c : Char) : Bool :=
  c = ' ' ∨ c = '\t' ∨ c = '\n' ∨ c = '\r' ∨ c.toNat = 11 ∨ c.toNat = 12

/-- Model of JS `String.prototype.trim` (ASCII whitespace). -/
def jsTrim (s : String) : String :=
  String.mk (((s.data.dropWhile isJsSpace).reverse.dropWhile isJsSpace).reverse)

/-- Whether the first character list is an initial segment of the second. -/
def startsWithChars : List Char → List Char → Bool
  | [], _ => true
  | _ :: _, [] => false
  | a :: as, b :: bs => a = b && startsWithChars as bs

/-- Model of JS `String.prototype.startsWith`. -/
def strStartsWith (s pat : String) : Bool := startsWithChars pat.data s.data

/-- Lexicographic (code-point) comparison of character lists; agrees with the
ordering the JS default `Array.sort()` comparator induces on these strings. -/
def charListLe : List Char → List Char → Bool
  | [], _ => true
  | _ :: _, [] => false
  | a :: as, b :: bs => if a < b then true else if b < a then false else charListLe as bs

/-- Lexicographic string order used to model JS `Array.prototype.sort()`. -/
def strLe (a b : String) : Prop := charListLe a.data b.data = true

instance : DecidableRel strLe := fun a b => by unfold strLe; infer_instance

/-- Sort a list of strings ascending, as the JS default `Array.sort()` does
for ASCII strings. -/
def sortStrings (l : List String) : List String := List.insertionSort strLe l

/-- Entries of `buildCanonicalHeaders`: for each header whose lower-cased and
trimmed key starts with `pfx`, the pair of that normalized key and the header
value, in enumeration order. Models the `list` pushes together with the
`fcHeaders[lowerKey] = headers[key]` assignments of the source. -/
def canonEntries (headers : List (String × String)) (pfx : String) : List (String × String) :=
  headers.filterMap fun e =>
    let lk := jsTrim (jsToLower e.1)
    if strStartsWith lk pfx then some (lk, e.2) else none

/-- Canonicalized `x-fc-` header block: one `key:value\n` line per selected
header, keys sorted; a later assignment to the same normalized key wins
(JS object semantics), modelled by looking up the reversed entry list. -/
def buildCanonicalHeaders (headers : List (String × String)) (pfx : String) : String :=
  let entries := canonEntries headers pfx
  let sortedKeys := sortStrings (entries.map Prod.fst)
  String.join (sortedKeys.map fun k => k ++ ":" ++ ((entries.reverse.lookup k).getD "") ++ "\n")

/-- A query-mapping value as the source treats it: a string is emitted as one
`key=value` pair, an array as one pair per element, anything else (modelled
by its JS string conversion, which `URLSearchParams` would use) is skipped by
the canonical string builder. -/
inductive QueryValue where
  | str (s : String)
  | arr (l : List String)
  | other (conv : String)
deriving DecidableEq

/-- The `key=value` pairs one query entry contributes to the signed string. -/
def queryPairs (k : String) : QueryValue → List String
  | .str v => [k ++ "=" ++ v]
  | .arr vs => vs.map fun v => k ++ "=" ++ v
  | .other _ => []

/-- All `key=value` pairs of a query mapping, in enumeration order. -/
def queryParams (qs : List (String × QueryValue)) : List String :=
  qs.flatMap fun e => queryPairs e.1 e.2

/-- The sorted, newline-joined query block appended to the signed string. -/
def queryBlock (qs : List (String × QueryValue)) : String :=
  String.intercalate "\n" (sortStrings (queryParams qs))

/-- Date line of the canonical string: the `date` header value verbatim, or
the literal text `undefined` when the header is absent (JS template-string
interpolation of a missing property). -/
def dateHeaderString (headers : List (String × String)) : String :=
  match headers.lookup "date" with
  | some d => d
  | none => "undefined"

/-- Embedding of `composeStringToSign` (src/library/client.ts): the canonical
string that is signed. -/
def composeStringToSign (method p : String) (headers : List (String × String))
    (queries : Option (List (String × QueryValue))) : String :=
  let contentMD5 := (headers.lookup "content-md5").getD ""
  let contentType := (headers.lookup "content-type").getD ""
  let date := dateHeaderString headers
  let signHeaders := buildCanonicalHeaders headers "x-fc-"
  let pathUnescaped := decodeURIComponent p
  let str := method ++ "\n" ++ contentMD5 ++ "\n" ++ contentType ++ "\n" ++ date ++ "\n"
    ++ signHeaders ++ pathUnescaped
  match queries with
  | none => str
  | some qs => str ++ "\n" ++ queryBlock qs

/-- Embedding of `signString`: base64 of the HMAC-SHA256 of the UTF-8 source
keyed by the UTF-8 secret. -/
def signString (source secret : String) : String :=
  base64encode (hmacSha256 (utf8Bytes secret) (utf8Bytes source))

/-- Embedding of `FCClient.getSignature`: the authorization header value. -/
def getSignature (accessKeyID accessKeySecret method p : String)
    (headers : List (String × String)) (queries : Option (List (String × QueryValue))) : String :=
  "FC " ++ accessKeyID ++ ":" ++ signString (composeStringToSign method p headers queries)
    accessKeySecret

/-- Decimal digits of a natural number (fuel-indexed, fuel > n suffices). -/
def natDigits : Nat → Nat → List Char
  | 0, _ => []
  | fuel + 1, n => if n < 10 then [hexDigit n] else natDigits fuel (n / 10) ++ [hexDigit (n % 10)]

/-- Decimal representation of a natural number. -/
def natToString (n : Nat) : String := String.mk (natDigits (n + 1) n)

/-- Decimal representation of an integer (JS number-to-string for integers). -/
def intToString (i : Int) : String :=
  if i < 0 then "-" ++ natToString i.natAbs else natToString i.natAbs

/-- JSON values: the structured ("plain object / array") request and response
bodies the client serializes and parses. -/
inductive JsonValue where
  | jnull
  | jbool (b : Bool)
  | jnum (n : Int)
  | jstr (s : String)
  | jarr (l : List JsonValue)
  | jobj (fields : List (String × JsonValue))

/-- JSON escape of one character inside a string literal. -/
def jsonEscapeChar (c : Char) : List Char :=
  if c = '"' then ['\\', '"']
  else if c = '\\' then ['\\', '\\']
  else if c = '\n' then ['\\', 'n']
  else if c = '\r' then ['\\', 'r']
  else if c = '\t' then ['\\', 't']
  else if c.toNat = 8 then ['\\', 'b']
  else if c.toNat = 12 then ['\\', 'f']
  else if c.toNat < 32 then ['\\', 'u', '0', '0', hexDigit (c.toNat / 16), hexDigit (c.toNat % 16)]
  else [c]

/-- JSON string literal. -/
def jsonQuote (s : String) : String := "\"" ++ String.mk (s.data.flatMap jsonEscapeChar) ++ "\""

mutual

/-- Model of `JSON.stringify` on JSON values. -/
def jsonStringify : JsonValue → String
  | .jnull => "null"
  | .jbool b => if b then "true" else "false"
  | .jnum n => intToString n
  | .jstr s => jsonQuote s
  | .jarr l => "[" ++ jsonStringifyList l ++ "]"
  | .jobj fs => "\x7b" ++ jsonStringifyFields fs ++ "\x7d"

/-- Comma-joined serializations of array elements. -/
def jsonStringifyList : List JsonValue → String
  | [] => ""
  | [x] => jsonStringify x
  | x :: rest => jsonStringify x ++ "," ++ jsonStringifyList rest

/-- Comma-joined serializations of object fields. -/
def jsonStringifyFields : List (String × JsonValue) → String
  | [] => ""
  | [e] => jsonQuote e.1 ++ ":" ++ jsonStringify e.2
  | e :: rest => jsonQuote e.1 ++ ":" ++ jsonStringify e.2 ++ "," ++ jsonStringifyFields rest

end

mutual

/-- Model of JS string conversion (template interpolation) of a JSON value. -/
def jsDisplay : JsonValue → String
  | .jnull => "null"
  | .jbool b => if b then "true" else "false"
  | .jnum n => intToString n
  | .jstr s => s
  | .jarr l => jsDisplayArr l
  | .jobj _ => "[object Object]"

/-- JS array-to-string: elements joined by commas, null displayed empty. -/
def jsDisplayArr : List JsonValue → String
  | [] => ""
  | [.jnull] => ""
  | [x] => jsDisplay x
  | .jnull :: rest => "," ++ jsDisplayArr rest
  | x :: rest => jsDisplay x ++ "," ++ jsDisplayArr rest

end

/-- JS string conversion of a possibly missing value (`undefined` when
absent). -/
def jsDisplayOpt : Option JsonValue → String
  | none => "undefined"
  | some v => jsDisplay v

/-- Request body argument shapes of `FCClient.request`, with the JS
truthiness-relevant primitive cases. -/
inductive Body where
  | jsNull
  | jsUndefined
  | buf (bytes : List Nat)
  | text (s : String)
  | stream (id : Nat)
  | num (n : Int)
  | bool (b : Bool)
  | jsonVal (v : JsonValue)

/-- JS truthiness of a body argument (`if (body)`). -/
def jsTruthy : Body → Bool
  | .jsNull => false
  | .jsUndefined => false
  | .buf _ => true
  | .text s => !(s == "")
  | .stream _ => true
  | .num n => !(n == 0)
  | .bool b => b
  | .jsonVal _ => true

/-- Whether the body is a stream (`"function" === typeof body.pipe`). -/
def isStreamBody : Body → Bool
  | .stream _ => true
  | _ => false

/-- Content type the body branch assigns: octet-stream for buffers, text and
streams; JSON marker for the serialized default case. -/
def bodyContentType : Body → String
  | .buf _ => "application/octet-stream"
  | .text _ => "application/octet-stream"
  | .stream _ => "application/octet-stream"
  | _ => "application/json"

/-- Bytes of the encoded non-stream body buffer. -/
def bodyBuffBytes : Body → List Nat
  | .buf bs => bs
  | .text s => utf8Bytes s
  | .num n => utf8Bytes (intToString n)
  | .bool b => utf8Bytes (if b then "true" else "false")
  | .jsonVal v => utf8Bytes (jsonStringify v)
  | _ => []

/-- Payload handed to the transport: a byte buffer or an unbuffered stream. -/
inductive PostBody where
  | bytes (bs : List Nat)
  | stream (id : Nat)
deriving DecidableEq

/-- JS property assignment `obj[k] = v`: overwrite in place if the key
exists, else append (insertion order of JS string keys). -/
def setProp (l : List (String × String)) (k v : String) : List (String × String) :=
  if l.any (fun e => e.1 == k) then l.map (fun e => if e.1 == k then (k, v) else e)
  else l ++ [(k, v)]

/-- JS `Object.assign(base, upd)`: assign the properties of `upd` in order. -/
def objAssign (base upd : List (String × String)) : List (String × String) :=
  upd.foldl (fun acc e => setProp acc e.1 e.2) base

/-- Result of the body-encoding block of `FCClient.request`: the headers
after the block and the payload for the transport. -/
structure BodyPrep where
  headers : List (String × String)
  postBody : Option PostBody

/-- Embedding of the `if (body) { ... }` block of `FCClient.request`: branch
on buffer / string / stream / serializable, set `content-type`, and for every
non-stream body set `content-length` and the base64 of the hex MD5 digest as
`content-md5`, before signing. -/
def encodeBody (headers : List (String × String)) (body : Body) : BodyPrep :=
  if jsTruthy body then
    match body with
    | .stream id =>
      ⟨setProp headers "content-type" "application/octet-stream", some (.stream id)⟩
    | b =>
      let bs := bodyBuffBytes b
      let h1 := setProp headers "content-type" (bodyContentType b)
      let md5b64 := base64encode (utf8Bytes (md5hex bs))
      ⟨setProp (setProp h1 "content-length" (natToString bs.length)) "content-md5" md5b64,
        some (.bytes bs)⟩
  else ⟨headers, none⟩

/-- Truthiness of an optional JS string (absent or empty is falsy). -/
def optTruthy : Option String → Bool
  | none => false
  | some s => !(s == "")

/-- Construction-time configuration of the client (`ClientConfig`). Optional
JS fields are `Option`; `secure` / `internal` model the truthiness of the
corresponding flags; an absent `timeout` models a non-finite one. -/
structure ClientConfig where
  accessKeyID : String
  accessKeySecret : String
  region : String
  secure : Bool
  internal : Bool
  timeout : Option Int
  securityToken : Option String
  endpoint : Option String
  headers : Option (List (String × String))

/-- Immutable state of a constructed `FCClient`. -/
structure FCClientState where
  accountId : String
  accessKeyID : String
  securityToken : Option String
  accessKeySecret : String
  endpoint : String
  host : String
  version : String
  timeout : Int
  headers : List (String × String)
deriving DecidableEq

/-- Embedding of the `FCClient` constructor; a thrown `TypeError` is the
`Except.error` case, carrying the message. -/
def mkFCClient (accountId : String) (config : Option ClientConfig) : Except String FCClientState :=
  if accountId == "" then .error "accountid must be passed in"
  else match config with
  | none => .error "config must be passed in"
  | some cfg =>
    if cfg.accessKeyID == "" then .error "config.accessKeyID must be passed in"
    else
      let sts := strStartsWith cfg.accessKeyID "STS"
      if sts && !optTruthy cfg.securityToken then
        .error "config.securityToken must be passed in for STS"
      else if cfg.accessKeySecret == "" then .error "config.accessKeySecret must be passed in"
      else if cfg.region == "" then .error "config.region must be passed in"
      else
        let protocol := if cfg.secure then "https" else "http"
        let internal := if cfg.internal then "-internal" else ""
        let host := accountId ++ "." ++ cfg.region ++ internal ++ ".fc.aliyuncs.com"
        let endpoint := match cfg.endpoint with
          | some e => if e == "" then protocol ++ "://" ++ host else e
          | none => protocol ++ "://" ++ host
        .ok ⟨accountId, cfg.accessKeyID, (if sts then cfg.securityToken else none),
          cfg.accessKeySecret, endpoint, host, "2016-08-15",
          (match cfg.timeout with | some t => t | none => 60000),
          (match cfg.headers with | some h => h | none => [])⟩

/-- Environment values read per call: the HTTP date of the call instant and
the process-derived user-agent string. -/
structure Env where
  now : String
  userAgent : String

/-- Embedding of `FCClient.buildHeaders`: the computed default headers. -/
def buildHeaders (c : FCClientState) (env : Env) : List (String × String) :=
  [("accept", "application/json"), ("date", env.now), ("host", c.host),
    ("user-agent", env.userAgent), ("x-fc-account-id", c.accountId)]
  ++ (if optTruthy c.securityToken then [("x-fc-security-token", c.securityToken.getD "")]
    else [])

/-- Upper-case hexadecimal digit. -/
def hexDigitUpper (n : Nat) : Char := "0123456789ABCDEF".data.getD n '0'

/-- One character of `application/x-www-form-urlencoded` output. -/
def formUrlChar (c : Char) : List Char :=
  if c = ' ' then ['+']
  else if ('A' ≤ c ∧ c ≤ 'Z') ∨ ('a' ≤ c ∧ c ≤ 'z') ∨ ('0' ≤ c ∧ c ≤ '9')
      ∨ c = '*' ∨ c = '-' ∨ c = '.' ∨ c = '_' then [c]
  else (utf8EncodeCharNat c).flatMap fun b => ['%', hexDigitUpper (b / 16), hexDigitUpper (b % 16)]

/-- String conversion `URLSearchParams` applies to a record value (arrays
join with commas). -/
def queryValueConv : QueryValue → String
  | .str s => s
  | .arr l => String.intercalate "," l
  | .other conv => conv

/-- Model of `new URLSearchParams(query).toString()`. -/
def urlSearchParamsToString (qs : List (String × QueryValue)) : String :=
  String.intercalate "&" (qs.map fun e =>
    String.mk (e.1.data.flatMap formUrlChar) ++ "="
      ++ String.mk ((queryValueConv e.2).data.flatMap formUrlChar))

/-- Everything `FCClient.request` computes before the transport call: the
wire URL, the headers present when the signature is computed, the canonical
string, the signature, the final wire headers and the payload. -/
structure PreparedRequest where
  url : String
  headersAtSign : List (String × String)
  stringToSign : String
  authorization : String
  headers : List (String × String)
  postBody : Option PostBody
  timeout : Int

/-- Header mapping `FCClient.request` assembles before the body block:
`Object.assign(this.buildHeaders(), this.headers, headers)`. -/
def mergedHeaders (c : FCClientState) (env : Env)
    (callHeaders : List (String × String)) : List (String × String) :=
  objAssign (objAssign (buildHeaders c env) c.headers) callHeaders

/-- Embedding of the pre-transport part of `FCClient.request`. -/
def requestPrepared (c : FCClientState) (env : Env) (method path : String)
    (query : Option (List (String × QueryValue))) (body : Body)
    (callHeaders : List (String × String)) : PreparedRequest :=
  let url0 := c.endpoint ++ "/" ++ c.version ++ path
  let url := match query with
    | some q => if q.isEmpty then url0 else url0 ++ "?" ++ urlSearchParamsToString q
    | none => url0
  let prep := encodeBody (mergedHeaders c env callHeaders) body
  let queriesToSign := if strStartsWith path "/proxy/" then some (query.getD []) else none
  let sigPath := "/" ++ c.version ++ path
  let signature := getSignature c.accessKeyID c.accessKeySecret method sigPath prep.headers
    queriesToSign
  ⟨url, prep.headers, composeStringToSign method sigPath prep.headers queriesToSign, signature,
    setProp prep.headers "authorization" signature, prep.postBody, c.timeout⟩

/-- Decoded transport response body at the point the status is checked:
UTF-8 text, parsed JSON, or raw bytes. -/
inductive DecodedBody where
  | text (s : String)
  | json (v : JsonValue)
  | buf (bs : List Nat)

/-- JS property read on the decoded body (`undefined` unless it is a JSON
object with the field; a later duplicate field wins, as in `JSON.parse`). -/
def getField (b : DecodedBody) (k : String) : Option JsonValue :=
  match b with
  | .json (.jobj fs) => fs.reverse.lookup k
  | _ => none

/-- JS truthiness of a possibly missing JSON value. -/
def jsonTruthy : Option JsonValue → Bool
  | none => false
  | some .jnull => false
  | some (.jbool b) => b
  | some (.jnum n) => !(n == 0)
  | some (.jstr s) => !(s == "")
  | some (.jarr _) => true
  | some (.jobj _) => true

/-- The error object `FCClient.request` throws on a non-2xx status: its
`message`, its `name` and its dynamically attached `code` property. -/
structure ApiErr where
  message : String
  name : String
  code : Option JsonValue

/-- Embedding of the non-2xx branch of `FCClient.request` (status check and
error construction): `some` error exactly when the status is outside
[200, 300). -/
def interpretError (method path : String) (statusCode : Nat)
    (respHeaders : List (String × String)) (body : DecodedBody) : Option ApiErr :=
  if statusCode < 200 ∨ 300 ≤ statusCode then
    let requestid := respHeaders.lookup "x-fc-request-id"
    let errMsg := if jsonTruthy (getField body "ErrorMessage") then getField body "ErrorMessage"
      else getField body "errorMessage"
    let code := getField body "ErrorCode"
    some ⟨method ++ " " ++ path ++ " failed with " ++ natToString statusCode
        ++ ". requestid: " ++ (match requestid with | some r => r | none => "undefined")
        ++ ", message: " ++ jsDisplayOpt errMsg ++ ".",
      "FC" ++ jsDisplayOpt code ++ "Error", code⟩
  else none

/-- Example client state used to instantiate the request-level theorems. -/
def cEx : FCClientState :=
  ⟨"acct", "akid", none, "secret", "http://acct.cn-shanghai.fc.aliyuncs.com",
    "acct.cn-shanghai.fc.aliyuncs.com", "2016-08-15", 60000, []⟩

/-- Example call environment used to instantiate the request-level theorems. -/
def envEx : Env := ⟨"Tue, 15 Nov 1994 08:12:31 GMT", "UA"⟩

theorem charListLe_cons_iff {a b : Char} {as bs : List Char} :
    charListLe (a :: as) (b :: bs) = true ↔ a < b ∨ (a = b ∧ charListLe as bs = true) := by
  rcases lt_trichotomy a b with h | h | h
  · simp [charListLe, h]
  · simp [charListLe, h, lt_irrefl]
  · simp [charListLe, h, not_lt_of_gt h, ne_of_gt h, (ne_of_gt h).symm]

theorem charListLe_total : ∀ a b : List Char, charListLe a b = true ∨ charListLe b a = true
  | [], _ => Or.inl rfl
  | _ :: _, [] => Or.inr rfl
  | a :: as, b :: bs => by
    rcases lt_trichotomy a b with h | h | h
    · exact Or.inl (charListLe_cons_iff.mpr (Or.inl h))
    · rcases charListLe_total as bs with ih | ih
      · exact Or.inl (charListLe_cons_iff.mpr (Or.inr ⟨h, ih⟩))
      · exact Or.inr (charListLe_cons_iff.mpr (Or.inr ⟨h.symm, ih⟩))
    · exact Or.inr (charListLe_cons_iff.mpr (Or.inl h))

theorem charListLe_trans :
    ∀ {a b c : List Char}, charListLe a b = true → charListLe b c = true → charListLe a c = true
  | [], _, _, _, _ => rfl
  | _ :: _, [], _, h, _ => by simp [charListLe] at h
  | _ :: _, _ :: _, [], _, h => by simp [charListLe] at h
  | a :: as, b :: bs, c :: cs, h1, h2 => by
    rcases charListLe_cons_iff.mp h1 with hab | ⟨hab, tab⟩ <;>
      rcases charListLe_cons_iff.mp h2 with hbc | ⟨hbc, tbc⟩
    · exact charListLe_cons_iff.mpr (Or.inl (lt_trans hab hbc))
    · exact charListLe_cons_iff.mpr (Or.inl (hbc ▸ hab))
    · exact charListLe_cons_iff.mpr (Or.inl (hab ▸ hbc))
    · exact charListLe_cons_iff.mpr (Or.inr ⟨hab.trans hbc, charListLe_trans tab tbc⟩)

theorem charListLe_antisymm :
    ∀ {a b : List Char}, charListLe a b = true → charListLe b a = true → a = b
  | [], [], _, _ => rfl
  | [], _ :: _, _, h => by simp [charListLe] at h
  | _ :: _, [], h, _ => by simp [charListLe] at h
  | a :: as, b :: bs, h1, h2 => by
    rcases charListLe_cons_iff.mp h1 with hab | ⟨hab, tab⟩ <;>
      rcases charListLe_cons_iff.mp h2 with hba | ⟨hba, tba⟩
    · exact absurd hba (not_lt_of_gt hab)
    · exact absurd hab (hba ▸ lt_irrefl a)
    · exact absurd hba (hab ▸ lt_irrefl a)
    · rw [hab, charListLe_antisymm tab tba]

instance : IsTotal String strLe := ⟨fun a b => charListLe_total a.data b.data⟩

instance : IsTrans String strLe := ⟨fun _ _ _ => charListLe_trans⟩

instance : IsAntisymm String strLe :=
  ⟨fun a b h1 h2 => String.ext (charListLe_antisymm h1 h2)⟩

theorem sortStrings_eq_of_perm {l1 l2 : List String} (p : l1.Perm l2) :
    sortStrings l1 = sortStrings l2 :=
  List.eq_of_perm_of_sorted
    ((List.perm_insertionSort _ _).trans (p.trans (List.perm_insertionSort _ _).symm))
    (List.sorted_insertionSort _ _) (List.sorted_insertionSort _ _)

theorem lookup_eq_of_perm {β : Type} {l1 l2 : List (String × β)} (p : l1.Perm l2)
    (nd : (l1.map Prod.fst).Nodup) (k : String) : l1.lookup k = l2.lookup k := by
  induction p with
  | nil => rfl
  | cons x p ih =>
    obtain ⟨x1, x2⟩ := x
    simp only [List.map_cons, List.nodup_cons] at nd
    cases hk : k == x1 <;> simp [List.lookup_cons, hk, ih nd.2]
  | swap x y l =>
    obtain ⟨x1, x2⟩ := x
    obtain ⟨y1, y2⟩ := y
    simp only [List.map_cons, List.nodup_cons, List.mem_cons] at nd
    cases hky : k == y1 <;> cases hkx : k == x1 <;>
      simp [List.lookup_cons, hky, hkx]
    exact absurd (Or.inl ((beq_iff_eq.mp hky).symm.trans (beq_iff_eq.mp hkx))) nd.1
  | trans p1 p2 ih1 ih2 =>
    exact (ih1 nd).trans (ih2 (((p1.map Prod.fst).nodup_iff).mp nd))

theorem canonEntries_keys_sublist (h : List (String × String)) (pfx : String) :
    ((canonEntries h pfx).map Prod.fst).Sublist (h.map fun e => jsTrim (jsToLower e.1)) := by
  induction h with
  | nil => simp [canonEntries]
  | cons e t ih =>
    simp only [canonEntries, List.filterMap_cons, List.map_cons]
    by_cases hc : strStartsWith (jsTrim (jsToLower e.1)) pfx
    · simpa [hc] using ih.cons₂ (jsTrim (jsToLower e.1))
    · simpa [hc] using ih.cons (jsTrim (jsToLower e.1))

theorem buildCanonicalHeaders_eq_of_perm {h1 h2 : List (String × String)} (p : h1.Perm h2)
    (nd : (h1.map fun e => jsTrim (jsToLower e.1)).Nodup) (pfx : String) :
    buildCanonicalHeaders h1 pfx = buildCanonicalHeaders h2 pfx := by
  have pe : (canonEntries h1 pfx).Perm (canonEntries h2 pfx) := p.filterMap _
  have nd1 : ((canonEntries h1 pfx).map Prod.fst).Nodup :=
    (canonEntries_keys_sublist h1 pfx).nodup nd
  have hkeys : sortStrings ((canonEntries h1 pfx).map Prod.fst)
      = sortStrings ((canonEntries h2 pfx).map Prod.fst) :=
    sortStrings_eq_of_perm (pe.map _)
  have prev : (canonEntries h1 pfx).reverse.Perm (canonEntries h2 pfx).reverse :=
    (List.reverse_perm _).trans (pe.trans (List.reverse_perm _).symm)
  have ndrev : ((canonEntries h1 pfx).reverse.map Prod.fst).Nodup := by
    rw [List.map_reverse]
    exact List.nodup_reverse.mpr nd1
  have hlook : ∀ k : String,
      (canonEntries h1 pfx).reverse.lookup k = (canonEntries h2 pfx).reverse.lookup k :=
    fun k => lookup_eq_of_perm prev ndrev k
  simp only [buildCanonicalHeaders]
  rw [hkeys]
  have hfun : (fun k => k ++ ":" ++ (((canonEntries h1 pfx).reverse.lookup k).getD "") ++ "\n")
      = fun k => k ++ ":" ++ (((canonEntries h2 pfx).reverse.lookup k).getD "") ++ "\n" :=
    funext fun k => by rw [hlook k]
  rw [hfun]

theorem beq_comm_false {a b : String} (h : (a == b) = false) : (b == a) = false :=
  beq_eq_false_iff_ne.mpr (Ne.symm (beq_eq_false_iff_ne.mp h))

theorem lookup_append_of_ne {b : Type} (l : List (String × b)) (k k' : String) (v : b)
    (hne : k' ≠ k) : (l ++ [(k, v)]).lookup k' = l.lookup k' := by
  induction l with
  | nil => simp [List.lookup, beq_eq_false_iff_ne.mpr hne]
  | cons e t ih =>
    obtain ⟨e1, e2⟩ := e
    cases hk : k' == e1 <;> simp [List.lookup_cons, hk, ih]

theorem lookup_map_replace (l : List (String × String)) (k v : String)
    (h : l.any (fun e => e.1 == k) = true) :
    (l.map fun e => if e.1 == k then (k, v) else e).lookup k = some v := by
  induction l with
  | nil => simp at h
  | cons e t ih =>
    obtain ⟨e1, e2⟩ := e
    by_cases he : e1 = k
    · subst he
      simp [List.lookup_cons, beq_self_eq_true]
    · have hb : (e1 == k) = false := beq_eq_false_iff_ne.mpr he
      have hkb : (k == e1) = false := beq_comm_false hb
      have ht : t.any (fun e => e.1 == k) = true := by simpa [List.any_cons, hb] using h
      simp [List.lookup_cons, hb, hkb, he]
      simpa using ih ht

theorem lookup_append_right_self (l : List (String × String)) (k v : String)
    (h : l.any (fun e => e.1 == k) = false) :
    (l ++ [(k, v)]).lookup k = some v := by
  induction l with
  | nil => simp [List.lookup_cons, beq_self_eq_true]
  | cons e t ih =>
    obtain ⟨e1, e2⟩ := e
    have hb : (e1 == k) = false := by
      cases hc : e1 == k
      · rfl
      · simp [List.any_cons, hc] at h
    have ht : t.any (fun e => e.1 == k) = false := by
      cases hc : t.any (fun e => e.1 == k)
      · rfl
      · simp [List.any_cons, hc] at h
    have hkb : (k == e1) = false := beq_comm_false hb
    simp [List.lookup_cons, hkb, ih ht]

theorem lookup_setProp_self (l : List (String × String)) (k v : String) :
    (setProp l k v).lookup k = some v := by
  unfold setProp
  cases h : l.any (fun e => e.1 == k)
  · simpa [h] using lookup_append_right_self l k v h
  · simpa [h] using lookup_map_replace l k v h

theorem lookup_map_replace_ne (l : List (String × String)) (k v k' : String) (hne : k' ≠ k) :
    (l.map fun e => if e.1 == k then (k, v) else e).lookup k' = l.lookup k' := by
  induction l with
  | nil => rfl
  | cons e t ih =>
    obtain ⟨e1, e2⟩ := e
    by_cases he : e1 = k
    · subst he
      simpa [List.lookup_cons, beq_self_eq_true, beq_eq_false_iff_ne.mpr hne] using ih
    · have hb : (e1 == k) = false := beq_eq_false_iff_ne.mpr he
      cases hk : k' == e1
      · simp [List.lookup_cons, hb, he, hk]
        simpa using ih
      · simp [List.lookup_cons, hb, he, hk]

theorem lookup_setProp_ne (l : List (String × String)) (k v k' : String) (hne : k' ≠ k) :
    (setProp l k v).lookup k' = l.lookup k' := by
  unfold setProp
  cases h : l.any (fun e => e.1 == k)
  · simpa [h] using lookup_append_of_ne l k k' v hne
  · simpa [h] using lookup_map_replace_ne l k v k' hne

theorem lookup_objAssign_of_ne (base upd : List (String × String)) (k : String)
    (h : ∀ e ∈ upd, e.1 ≠ k) : (objAssign base upd).lookup k = base.lookup k := by
  induction upd generalizing base with
  | nil => rfl
  | cons e t ih =>
    have he : k ≠ e.1 := fun hc => h e (List.mem_cons_self e t) hc.symm
    have ht : ∀ x ∈ t, x.1 ≠ k := fun x hx => h x (List.mem_cons_of_mem e hx)
    calc (objAssign (setProp base e.1 e.2) t).lookup k
        = (setProp base e.1 e.2).lookup k := ih (setProp base e.1 e.2) ht
      _ = base.lookup k := lookup_setProp_ne base e.1 e.2 k he

theorem lookup_buildHeaders_none (c : FCClientState) (env : Env) (k : String)
    (h1 : k ≠ "accept") (h2 : k ≠ "date") (h3 : k ≠ "host") (h4 : k ≠ "user-agent")
    (h5 : k ≠ "x-fc-account-id") (h6 : k ≠ "x-fc-security-token") :
    (buildHeaders c env).lookup k = none := by
  unfold buildHeaders
  cases htok : optTruthy c.securityToken <;>
    simp [List.lookup, beq_eq_false_iff_ne.mpr h1, beq_eq_false_iff_ne.mpr h2,
      beq_eq_false_iff_ne.mpr h3, beq_eq_false_iff_ne.mpr h4,
      beq_eq_false_iff_ne.mpr h5, beq_eq_false_iff_ne.mpr h6]

theorem composeStringToSign_some (m p : String) (h : List (String × String))
    (qs : List (String × QueryValue)) :
    composeStringToSign m p h (some qs) = composeStringToSign m p h none ++ "\n" ++ queryBlock qs :=
  rfl

/-- C2: for method GET, path /2016-08-15/services, headers carrying exactly
the given date and host, and no query mapping, composeStringToSign returns
exactly the expected canonical string, and the signature is the base64
HMAC-SHA256 of that exact string under key s3cr3t (golden vector computed
with an independent implementation). -/
theorem C2_golden_vector :
    composeStringToSign "GET" "/2016-08-15/services"
      [("date", "Tue, 15 Nov 1994 08:12:31 GMT"), ("host", "acct.cn-shanghai.example.com")] none
      = "GET\n\n\nTue, 15 Nov 1994 08:12:31 GMT\n/2016-08-15/services"
    ∧ signString "GET\n\n\nTue, 15 Nov 1994 08:12:31 GMT\n/2016-08-15/services" "s3cr3t"
      = base64encode (hmacSha256 (utf8Bytes "s3cr3t")
          (utf8Bytes "GET\n\n\nTue, 15 Nov 1994 08:12:31 GMT\n/2016-08-15/services"))
    ∧ base64encode (hmacSha256 (utf8Bytes "s3cr3t")
          (utf8Bytes "GET\n\n\nTue, 15 Nov 1994 08:12:31 GMT\n/2016-08-15/services"))
      = "yfAA0FNYJRJOGshbA8vPqJAYg0fmvQAJVx6xHyqP8xQ=" :=
  ⟨by decide, rfl, by decide⟩

/-- C3: getSignature returns the scheme tag FC, a space, the access key id,
a colon, and the base64 of the raw HMAC-SHA256 digest of the UTF-8 canonical
string keyed by the UTF-8 secret; as a pure function it is deterministic. -/
theorem C3_getSignature_format (accessKeyID accessKeySecret method p : String)
    (headers : List (String × String)) (queries : Option (List (String × QueryValue))) :
    getSignature accessKeyID accessKeySecret method p headers queries
      = "FC " ++ accessKeyID ++ ":"
        ++ base64encode (hmacSha256 (utf8Bytes accessKeySecret)
          (utf8Bytes (composeStringToSign method p headers queries))) := rfl

/-- C4 counterexample: two header mappings containing the same key-value
pairs in different insertion orders on which composeStringToSign differs
(two distinct keys collide after lower-casing, and the later assignment to
the collapsed key wins). -/
theorem C4_counterexample :
    [(("x-fc-a" : String), ("1" : String)), ("X-Fc-A", "2")].Perm
      [("X-Fc-A", "2"), ("x-fc-a", "1")]
    ∧ composeStringToSign "GET" "/p" [("x-fc-a", "1"), ("X-Fc-A", "2")] (some [])
      ≠ composeStringToSign "GET" "/p" [("X-Fc-A", "2"), ("x-fc-a", "1")] (some []) :=
  ⟨by decide, by decide⟩

/-- C4 (amended): composeStringToSign gives identical output on header and
query mappings with identical content in different insertion order, provided
no two distinct header keys coincide after lower-casing and trimming (the
counterexample shows the restriction is necessary). -/
theorem C4_order_invariant (m p : String)
    {h1 h2 : List (String × String)} {q1 q2 : List (String × QueryValue)}
    (hperm : h1.Perm h2) (qperm : q1.Perm q2)
    (nd : (h1.map fun e => jsTrim (jsToLower e.1)).Nodup) :
    composeStringToSign m p h1 (some q1) = composeStringToSign m p h2 (some q2) := by
  have ndraw : (h1.map Prod.fst).Nodup := by
    apply List.Nodup.of_map (fun s => jsTrim (jsToLower s))
    simpa [List.map_map, Function.comp] using nd
  have hmd5 := lookup_eq_of_perm hperm ndraw "content-md5"
  have hct := lookup_eq_of_perm hperm ndraw "content-type"
  have hdate := lookup_eq_of_perm hperm ndraw "date"
  have hch := buildCanonicalHeaders_eq_of_perm hperm nd "x-fc-"
  have hqp : (queryParams q1).Perm (queryParams q2) := qperm.flatMap_right _
  have hqb : queryBlock q1 = queryBlock q2 := by
    unfold queryBlock
    rw [sortStrings_eq_of_perm hqp]
  simp only [composeStringToSign, dateHeaderString, hmd5, hct, hdate, hch, hqb]

/-- C4 witness: a concrete permuted pair of header and query mappings on
which the amended invariance theorem applies. -/
theorem C4_witness :
    composeStringToSign "GET" "/p" [("x-fc-b", "2"), ("date", "D")]
        (some [("a", QueryValue.str "1"), ("b", QueryValue.str "2")])
      = composeStringToSign "GET" "/p" [("date", "D"), ("x-fc-b", "2")]
        (some [("b", QueryValue.str "2"), ("a", QueryValue.str "1")]) :=
  C4_order_invariant "GET" "/p" (by decide) (by decide) (by decide)

/-- C8: when the header mapping has no date key, the date position of the
canonical string holds the literal text undefined, not the empty string. -/
theorem C8_missing_date_is_undefined (method p : String) (headers : List (String × String))
    (queries : Option (List (String × QueryValue)))
    (hd : headers.lookup "date" = none) :
    (∃ tail, composeStringToSign method p headers queries
        = method ++ "\n" ++ ((headers.lookup "content-md5").getD "") ++ "\n"
          ++ ((headers.lookup "content-type").getD "") ++ "\n" ++ "undefined" ++ "\n" ++ tail)
      ∧ ("undefined" : String) ≠ "" := by
  refine ⟨?_, by decide⟩
  cases queries with
  | none =>
    exact ⟨buildCanonicalHeaders headers "x-fc-" ++ decodeURIComponent p,
      by simp [composeStringToSign, dateHeaderString, hd, String.append_assoc]⟩
  | some qs =>
    exact ⟨buildCanonicalHeaders headers "x-fc-" ++ decodeURIComponent p ++ "\n" ++ queryBlock qs,
      by simp [composeStringToSign, dateHeaderString, hd, String.append_assoc]⟩

/-- C8 witness: the headers of the golden example without their date entry. -/
theorem C8_witness :
    ([(("host" : String), ("h" : String))].lookup "date" = none)
    ∧ ((∃ tail, composeStringToSign "GET" "/x" [("host", "h")] none
        = "GET" ++ "\n" ++ (([(("host" : String), ("h" : String))].lookup "content-md5").getD "")
          ++ "\n" ++ (([(("host" : String), ("h" : String))].lookup "content-type").getD "")
          ++ "\n" ++ "undefined" ++ "\n" ++ tail)
      ∧ ("undefined" : String) ≠ "") :=
  ⟨rfl, C8_missing_date_is_undefined "GET" "/x" [("host", "h")] none rfl⟩

theorem mergedHeaders_lookup_none (c : FCClientState) (env : Env)
    (callHeaders : List (String × String)) (k : String)
    (hk1 : ∀ e ∈ c.headers, e.1 ≠ k) (hk2 : ∀ e ∈ callHeaders, e.1 ≠ k)
    (h1 : k ≠ "accept") (h2 : k ≠ "date") (h3 : k ≠ "host") (h4 : k ≠ "user-agent")
    (h5 : k ≠ "x-fc-account-id") (h6 : k ≠ "x-fc-security-token") :
    (mergedHeaders c env callHeaders).lookup k = none := by
  unfold mergedHeaders
  rw [lookup_objAssign_of_ne _ _ _ hk2, lookup_objAssign_of_ne _ _ _ hk1]
  exact lookup_buildHeaders_none c env k h1 h2 h3 h4 h5 h6

theorem lookup_md5_chain (h0 : List (String × String)) (ct cl md5v : String) :
    (setProp (setProp (setProp h0 "content-type" ct) "content-length" cl)
        "content-md5" md5v).lookup "content-md5" = some md5v
    ∧ (setProp (setProp (setProp h0 "content-type" ct) "content-length" cl)
        "content-md5" md5v).lookup "content-length" = some cl
    ∧ (setProp (setProp (setProp h0 "content-type" ct) "content-length" cl)
        "content-md5" md5v).lookup "content-type" = some ct := by
  refine ⟨lookup_setProp_self _ _ _, ?_, ?_⟩
  · rw [lookup_setProp_ne _ _ _ _ (by decide)]
    exact lookup_setProp_self _ _ _
  · rw [lookup_setProp_ne _ _ _ _ (by decide), lookup_setProp_ne _ _ _ _ (by decide)]
    exact lookup_setProp_self _ _ _

theorem encodeBody_eq_nonstream (h0 : List (String × String)) (body : Body)
    (ht : jsTruthy body = true) (hs : isStreamBody body = false) :
    encodeBody h0 body
      = ⟨setProp (setProp (setProp h0 "content-type" (bodyContentType body))
            "content-length" (natToString (bodyBuffBytes body).length))
          "content-md5" (base64encode (utf8Bytes (md5hex (bodyBuffBytes body)))),
        some (.bytes (bodyBuffBytes body))⟩ := by
  cases body <;> simp_all [encodeBody, jsTruthy, isStreamBody, bodyContentType, bodyBuffBytes]

theorem encodeBody_eq_falsy (h0 : List (String × String)) (body : Body)
    (ht : jsTruthy body = false) : encodeBody h0 body = ⟨h0, none⟩ := by
  cases body <;> simp_all [encodeBody, jsTruthy]

theorem queryBlock_nil : queryBlock [] = "" := rfl

/-- C1: the query mapping is included in the canonical string that is signed
iff the caller-supplied path begins with /proxy/; for every other path the
signed string is independent of the query, while the query is still appended
to the wire URL. -/
theorem C1_query_signing_asymmetry (c : FCClientState) (env : Env) (method path : String)
    (query : Option (List (String × QueryValue))) (body : Body)
    (callHeaders : List (String × String)) :
    (strStartsWith path "/proxy/" = false →
      ∀ query2 : Option (List (String × QueryValue)),
        (requestPrepared c env method path query body callHeaders).stringToSign
          = (requestPrepared c env method path query2 body callHeaders).stringToSign)
    ∧ (strStartsWith path "/proxy/" = true →
      (requestPrepared c env method path query body callHeaders).stringToSign
        = composeStringToSign method ("/" ++ c.version ++ path)
            (requestPrepared c env method path query body callHeaders).headersAtSign none
          ++ "\n" ++ queryBlock (query.getD []))
    ∧ (∀ qs, query = some qs → qs ≠ [] →
      (requestPrepared c env method path query body callHeaders).url
        = c.endpoint ++ "/" ++ c.version ++ path ++ "?" ++ urlSearchParamsToString qs) := by
  refine ⟨fun hpx query2 => ?_, fun hpx => ?_, fun qs hq hne => ?_⟩
  · simp [requestPrepared, hpx]
  · simp only [requestPrepared, hpx, if_true]
    exact composeStringToSign_some _ _ _ _
  · subst hq
    cases qs with
    | nil => exact absurd rfl hne
    | cons e t => simp [requestPrepared]

/-- C9: on a passthrough path with a null or empty query mapping, the signed
string still ends with a newline after the decoded path: the dispatcher
substitutes an empty mapping and the builder appends the separator for any
supplied mapping, even an empty one. -/
theorem C9_proxy_empty_query_block (c : FCClientState) (env : Env) (method path : String)
    (query : Option (List (String × QueryValue))) (body : Body)
    (callHeaders : List (String × String))
    (hpx : strStartsWith path "/proxy/" = true)
    (hq : query = none ∨ query = some []) :
    (requestPrepared c env method path query body callHeaders).stringToSign
      = composeStringToSign method ("/" ++ c.version ++ path)
          (requestPrepared c env method path query body callHeaders).headersAtSign none
        ++ "\n" := by
  rcases hq with rfl | rfl <;>
  · simp only [requestPrepared, hpx, if_true]
    rw [composeStringToSign_some]
    simp [queryBlock_nil, String.append_empty]

/-- C5: for a truthy body and no caller-supplied content-length/content-md5
headers, those headers are present when the signature is computed iff the
body is non-streaming; their values are the encoded byte length and the
base64 re-encoding of the hex MD5 digest, and a streaming body reaches the
transport unbuffered with neither header. -/
theorem C5_body_digest_headers (c : FCClientState) (env : Env) (method path : String)
    (query : Option (List (String × QueryValue))) (body : Body)
    (callHeaders : List (String × String))
    (hbody : jsTruthy body = true)
    (hcl : ∀ e ∈ c.headers ++ callHeaders, e.1 ≠ "content-length")
    (hmd : ∀ e ∈ c.headers ++ callHeaders, e.1 ≠ "content-md5") :
    ((∃ v, (requestPrepared c env method path query body callHeaders).headersAtSign.lookup
        "content-md5" = some v) ↔ isStreamBody body = false)
    ∧ (isStreamBody body = false →
      (requestPrepared c env method path query body callHeaders).headersAtSign.lookup
          "content-length" = some (natToString (bodyBuffBytes body).length)
      ∧ (requestPrepared c env method path query body callHeaders).headersAtSign.lookup
          "content-md5" = some (base64encode (utf8Bytes (md5hex (bodyBuffBytes body))))
      ∧ (requestPrepared c env method path query body callHeaders).postBody
          = some (PostBody.bytes (bodyBuffBytes body)))
    ∧ (∀ id, body = Body.stream id →
      (requestPrepared c env method path query body callHeaders).headersAtSign.lookup
          "content-length" = none
      ∧ (requestPrepared c env method path query body callHeaders).headersAtSign.lookup
          "content-md5" = none
      ∧ (requestPrepared c env method path query body callHeaders).postBody
          = some (PostBody.stream id)) := by
  have h0md : (mergedHeaders c env callHeaders).lookup "content-md5" = none :=
    mergedHeaders_lookup_none c env callHeaders _
      (fun e he => hmd e (List.mem_append_left _ he))
      (fun e he => hmd e (List.mem_append_right _ he))
      (by decide) (by decide) (by decide) (by decide) (by decide) (by decide)
  have h0cl : (mergedHeaders c env callHeaders).lookup "content-length" = none :=
    mergedHeaders_lookup_none c env callHeaders _
      (fun e he => hcl e (List.mem_append_left _ he))
      (fun e he => hcl e (List.mem_append_right _ he))
      (by decide) (by decide) (by decide) (by decide) (by decide) (by decide)
  cases hstream : isStreamBody body
  · have hred := encodeBody_eq_nonstream (mergedHeaders c env callHeaders) body hbody hstream
    have hAt : (requestPrepared c env method path query body callHeaders).headersAtSign
        = setProp (setProp (setProp (mergedHeaders c env callHeaders)
            "content-type" (bodyContentType body))
            "content-length" (natToString (bodyBuffBytes body).length))
          "content-md5" (base64encode (utf8Bytes (md5hex (bodyBuffBytes body)))) :=
      congrArg BodyPrep.headers hred
    have hPost : (requestPrepared c env method path query body callHeaders).postBody
        = some (PostBody.bytes (bodyBuffBytes body)) :=
      congrArg BodyPrep.postBody hred
    refine ⟨⟨fun _ => rfl, fun _ => ⟨_, by rw [hAt]; exact (lookup_md5_chain _ _ _ _).1⟩⟩,
      fun _ => ⟨by rw [hAt]; exact (lookup_md5_chain _ _ _ _).2.1,
        by rw [hAt]; exact (lookup_md5_chain _ _ _ _).1, hPost⟩,
      fun id2 hid => by subst hid; simp [isStreamBody] at hstream⟩
  · have hid : ∃ id, body = Body.stream id := by
      cases body <;> simp_all [isStreamBody]
    obtain ⟨id, rfl⟩ := hid
    have hAt : (requestPrepared c env method path query (Body.stream id) callHeaders).headersAtSign
        = setProp (mergedHeaders c env callHeaders) "content-type" "application/octet-stream" :=
      rfl
    have hmd5At : (requestPrepared c env method path query (Body.stream id)
        callHeaders).headersAtSign.lookup "content-md5" = none := by
      rw [hAt, lookup_setProp_ne _ _ _ _ (by decide)]
      exact h0md
    have hclAt : (requestPrepared c env method path query (Body.stream id)
        callHeaders).headersAtSign.lookup "content-length" = none := by
      rw [hAt, lookup_setProp_ne _ _ _ _ (by decide)]
      exact h0cl
    refine ⟨⟨fun hv => ?_, fun hs => Bool.noConfusion hs⟩,
      fun hs => Bool.noConfusion hs, fun id2 hid2 => ?_⟩
    · obtain ⟨v, hv⟩ := hv
      rw [hmd5At] at hv
      cases hv
    · injection hid2 with h
      subst h
      exact ⟨hclAt, hmd5At, rfl⟩

/-- C10: a falsy body (empty string, zero) is treated as absent: no
content-type, content-length or content-md5 header is set, no payload goes
to the transport, and the content-md5 and content-type canonical fields are
empty. -/
theorem C10_falsy_body_ignored (c : FCClientState) (env : Env) (method path : String)
    (query : Option (List (String × QueryValue))) (body : Body)
    (callHeaders : List (String × String))
    (hbody : jsTruthy body = false)
    (hk : ∀ e ∈ c.headers ++ callHeaders,
      e.1 ≠ "content-type" ∧ e.1 ≠ "content-length" ∧ e.1 ≠ "content-md5") :
    (requestPrepared c env method path query body callHeaders).headersAtSign
        = mergedHeaders c env callHeaders
    ∧ (requestPrepared c env method path query body callHeaders).headersAtSign.lookup
        "content-type" = none
    ∧ (requestPrepared c env method path query body callHeaders).headersAtSign.lookup
        "content-length" = none
    ∧ (requestPrepared c env method path query body callHeaders).headersAtSign.lookup
        "content-md5" = none
    ∧ (requestPrepared c env method path query body callHeaders).postBody = none
    ∧ ∃ tail, (requestPrepared c env method path query body callHeaders).stringToSign
        = method ++ "\n" ++ "" ++ "\n" ++ "" ++ "\n" ++ tail := by
  have hred := encodeBody_eq_falsy (mergedHeaders c env callHeaders) body hbody
  have hAt : (requestPrepared c env method path query body callHeaders).headersAtSign
      = mergedHeaders c env callHeaders := congrArg BodyPrep.headers hred
  have hPost : (requestPrepared c env method path query body callHeaders).postBody = none :=
    congrArg BodyPrep.postBody hred
  have hct : (mergedHeaders c env callHeaders).lookup "content-type" = none :=
    mergedHeaders_lookup_none c env callHeaders _
      (fun e he => (hk e (List.mem_append_left _ he)).1)
      (fun e he => (hk e (List.mem_append_right _ he)).1)
      (by decide) (by decide) (by decide) (by decide) (by decide) (by decide)
  have hcl : (mergedHeaders c env callHeaders).lookup "content-length" = none :=
    mergedHeaders_lookup_none c env callHeaders _
      (fun e he => (hk e (List.mem_append_left _ he)).2.1)
      (fun e he => (hk e (List.mem_append_right _ he)).2.1)
      (by decide) (by decide) (by decide) (by decide) (by decide) (by decide)
  have hmd : (mergedHeaders c env callHeaders).lookup "content-md5" = none :=
    mergedHeaders_lookup_none c env callHeaders _
      (fun e he => (hk e (List.mem_append_left _ he)).2.2)
      (fun e he => (hk e (List.mem_append_right _ he)).2.2)
      (by decide) (by decide) (by decide) (by decide) (by decide) (by decide)
  have hsts : (requestPrepared c env method path query body callHeaders).stringToSign
      = composeStringToSign method ("/" ++ c.version ++ path) (mergedHeaders c env callHeaders)
        (if strStartsWith path "/proxy/" = true then some (query.getD []) else none) := by
    show composeStringToSign method ("/" ++ c.version ++ path)
        (encodeBody (mergedHeaders c env callHeaders) body).headers
        (if strStartsWith path "/proxy/" = true then some (query.getD []) else none) = _
    rw [hred]
  refine ⟨hAt, hAt ▸ hct, hAt ▸ hcl, hAt ▸ hmd, hPost, ?_⟩
  cases hpx : strStartsWith path "/proxy/"
  · refine ⟨dateHeaderString (mergedHeaders c env callHeaders) ++ "\n"
        ++ buildCanonicalHeaders (mergedHeaders c env callHeaders) "x-fc-"
        ++ decodeURIComponent ("/" ++ c.version ++ path), ?_⟩
    rw [hsts]
    simp [hpx, composeStringToSign, hct, hmd, String.append_assoc]
  · refine ⟨dateHeaderString (mergedHeaders c env callHeaders) ++ "\n"
        ++ buildCanonicalHeaders (mergedHeaders c env callHeaders) "x-fc-"
        ++ decodeURIComponent ("/" ++ c.version ++ path) ++ "\n"
        ++ queryBlock (query.getD []), ?_⟩
    rw [hsts]
    simp [hpx, composeStringToSign, hct, hmd, String.append_assoc]

/-- C1 witness: concrete non-proxy and proxy calls instantiating the
asymmetry theorem. -/
theorem C1_witness :
    (requestPrepared cEx envEx "GET" "/services" (some [("a", QueryValue.str "1")])
        Body.jsNull []).stringToSign
      = (requestPrepared cEx envEx "GET" "/services" none Body.jsNull []).stringToSign
    ∧ (requestPrepared cEx envEx "GET" "/proxy/s/f" (some [("a", QueryValue.str "1")])
        Body.jsNull []).stringToSign
      = composeStringToSign "GET" ("/" ++ cEx.version ++ "/proxy/s/f")
          (requestPrepared cEx envEx "GET" "/proxy/s/f" (some [("a", QueryValue.str "1")])
            Body.jsNull []).headersAtSign none
        ++ "\n" ++ queryBlock [("a", QueryValue.str "1")]
    ∧ (requestPrepared cEx envEx "GET" "/services" (some [("a", QueryValue.str "1")])
        Body.jsNull []).url
      = cEx.endpoint ++ "/" ++ cEx.version ++ "/services" ++ "?"
        ++ urlSearchParamsToString [("a", QueryValue.str "1")] :=
  ⟨(C1_query_signing_asymmetry cEx envEx "GET" "/services" (some [("a", QueryValue.str "1")])
      Body.jsNull []).1 (by decide) none,
    (C1_query_signing_asymmetry cEx envEx "GET" "/proxy/s/f" (some [("a", QueryValue.str "1")])
      Body.jsNull []).2.1 (by decide),
    (C1_query_signing_asymmetry cEx envEx "GET" "/services" (some [("a", QueryValue.str "1")])
      Body.jsNull []).2.2 [("a", QueryValue.str "1")] rfl (by decide)⟩

/-- C9 witness: a proxy path with a null query. -/
theorem C9_witness :
    (requestPrepared cEx envEx "GET" "/proxy/s/f" none Body.jsNull []).stringToSign
      = composeStringToSign "GET" ("/" ++ cEx.version ++ "/proxy/s/f")
          (requestPrepared cEx envEx "GET" "/proxy/s/f" none Body.jsNull []).headersAtSign none
        ++ "\n" :=
  C9_proxy_empty_query_block cEx envEx "GET" "/proxy/s/f" none Body.jsNull []
    (by decide) (Or.inl rfl)

/-- C5 witness: a concrete text body, whose content-md5 header evaluates to
the base64 re-encoding of its hex MD5 digest. -/
theorem C5_witness :
    (requestPrepared cEx envEx "POST" "/services" none (Body.text "hi") []).headersAtSign.lookup
        "content-md5"
      = some "NDlmNjhhNWM4NDkzZWMyYzBiZjQ4OTgyMWMyMWZjM2I=" :=
  (((C5_body_digest_headers cEx envEx "POST" "/services" none (Body.text "hi") []
      (by decide) (by simp [cEx]) (by simp [cEx])).2.1 rfl).2.1).trans (by decide)

/-- C10 witness: an empty-string body is treated as absent. -/
theorem C10_witness :
    (requestPrepared cEx envEx "POST" "/services" none (Body.text "") []).postBody = none
    ∧ (requestPrepared cEx envEx "POST" "/services" none
        (Body.text "") []).headersAtSign.lookup "content-type" = none :=
  ⟨(C10_falsy_body_ignored cEx envEx "POST" "/services" none (Body.text "") []
      (by decide) (by simp [cEx])).2.2.2.2.1,
    (C10_falsy_body_ignored cEx envEx "POST" "/services" none (Body.text "") []
      (by decide) (by simp [cEx])).2.1⟩

/-- C6 counterexample: with ErrorMessage present but empty (falsy) and
errorMessage "foo", the code reports "foo" rather than the present
ErrorMessage, contradicting strict preference-by-presence. -/
theorem C6_counterexample :
    (interpretError "GET" "/x" 404 [("x-fc-request-id", "rid")]
        (DecodedBody.json (JsonValue.jobj [("ErrorMessage", JsonValue.jstr ""),
          ("errorMessage", JsonValue.jstr "foo"),
          ("ErrorCode", JsonValue.jstr "C")]))).map ApiErr.message
      = some "GET /x failed with 404. requestid: rid, message: foo."
    ∧ some "GET /x failed with 404. requestid: rid, message: foo."
      ≠ some "GET /x failed with 404. requestid: rid, message: ." :=
  ⟨rfl, by decide⟩

/-- C6 (amended): every response with status outside [200, 300) produces an
error whose message embeds the status code, the request id taken from the
x-fc-request-id header, and the message selected from ErrorMessage when it
is present with a truthy value and from errorMessage otherwise, and whose
code is the ErrorCode field of the body. -/
theorem C6_error_interpretation (method path : String) (status : Nat)
    (respHeaders : List (String × String)) (body : DecodedBody)
    (h : status < 200 ∨ 300 ≤ status) :
    interpretError method path status respHeaders body
      = some ⟨method ++ " " ++ path ++ " failed with " ++ natToString status
          ++ ". requestid: " ++ (match respHeaders.lookup "x-fc-request-id" with
            | some r => r
            | none => "undefined")
          ++ ", message: " ++ jsDisplayOpt (if jsonTruthy (getField body "ErrorMessage") = true
            then getField body "ErrorMessage" else getField body "errorMessage") ++ ".",
        "FC" ++ jsDisplayOpt (getField body "ErrorCode") ++ "Error",
        getField body "ErrorCode"⟩ := by
  simp [interpretError, h]

/-- C6 witness: the specified 404 ServiceNotFound example. -/
theorem C6_witness :
    interpretError "GET" "/services/foo" 404 [("x-fc-request-id", "rid-1")]
        (DecodedBody.json (JsonValue.jobj [("ErrorCode", JsonValue.jstr "ServiceNotFound"),
          ("ErrorMessage", JsonValue.jstr "foo")]))
      = some ⟨"GET /services/foo failed with 404. requestid: rid-1, message: foo.",
          "FCServiceNotFoundError", some (JsonValue.jstr "ServiceNotFound")⟩ := by
  rw [C6_error_interpretation "GET" "/services/foo" 404 [("x-fc-request-id", "rid-1")]
    (DecodedBody.json (JsonValue.jobj [("ErrorCode", JsonValue.jstr "ServiceNotFound"),
      ("ErrorMessage", JsonValue.jstr "foo")])) (by decide)]
  rfl

/-- C7: construction fails synchronously, before any network activity (the
constructor model performs none), when the account id, access key id or
secret is empty, or when the key id has the STS temporary-credential prefix
and no session token is supplied. -/
theorem C7_constructor_validation (accountId : String) (cfg : ClientConfig)
    (h : accountId = "" ∨ cfg.accessKeyID = "" ∨ cfg.accessKeySecret = ""
      ∨ (strStartsWith cfg.accessKeyID "STS" = true ∧ optTruthy cfg.securityToken = false)) :
    (mkFCClient accountId (some cfg)).isOk = false := by
  by_cases h0 : accountId = ""
  · simp [mkFCClient, h0, Except.isOk, Except.toBool]
  · by_cases h1 : cfg.accessKeyID = ""
    · simp [mkFCClient, h0, h1, Except.isOk, Except.toBool]
    · by_cases h2 : strStartsWith cfg.accessKeyID "STS" = true
          ∧ optTruthy cfg.securityToken = false
      · have hb : (strStartsWith cfg.accessKeyID "STS" && !optTruthy cfg.securityToken) = true :=
          by simp [h2.1, h2.2]
        simp [mkFCClient, h0, h1, hb, Except.isOk, Except.toBool]
      · by_cases h3 : cfg.accessKeySecret = ""
        · cases hb : (strStartsWith cfg.accessKeyID "STS" && !optTruthy cfg.securityToken) <;>
            simp [mkFCClient, h0, h1, hb, h3, Except.isOk, Except.toBool]
        · rcases h with h | h | h | h
          · exact absurd h h0
          · exact absurd h h1
          · exact absurd h h3
          · exact absurd h h2

/-- C7 witness: an STS key id with no session token fails construction. -/
theorem C7_witness :
    (mkFCClient "acct"
      (some ⟨"STSxyz", "sec", "cn-shanghai", false, false, none, none, none, none⟩)).isOk
      = false :=
  C7_constructor_validation "acct"
    ⟨"STSxyz", "sec", "cn-shanghai", false, false, none, none, none, none⟩
    (Or.inr (Or.inr (Or.inr ⟨by decide, rfl⟩)))
